import Mathlib

/-!
Verification development for the Monday.com / Zendesk activation-code app
(`Monday-CRM.py` and its near-duplicate `Backup.py`).

The Python source is shallowly embedded: pure helpers become Lean
functions; every remote HTTP interaction is abstracted as a field of an
`Env` record (the deterministic remote world of one run); exceptions
become `Except`/`Option` values mirroring the `try/except` structure of
the source.  Ghost instrumentation (`calls`, `usedFallback`) records
which mutation calls a run issues and whether the trailing fallback
`return` statement was executed; it does not influence any computed
value.
-/

namespace CRMApp

/-! ### Python-compatible character and string helpers -/

/-- Python `\s` (ASCII fragment): the whitespace characters recognised by
`str.strip` and the regex escape. -/
def isPySpace (c : Char) : Bool :=
  c = ' ' || c = '\t' || c = '\n' || c = '\r' || c = '\x0b' || c = '\x0c'

/-- Python regex `\w`: letters, digits and underscore (ASCII fragment). -/
def isWordChar (c : Char) : Bool :=
  c.isAlphanum || c = '_'

/-- Python `str.isdigit` (ASCII fragment): non-empty and all digits. -/
def pyIsDigitStr (s : String) : Bool :=
  !s.data.isEmpty && s.data.all Char.isDigit

/-- Python `str.strip()`: drop leading and trailing whitespace. -/
def pyStrip (s : String) : String :=
  String.mk (((s.data.dropWhile isPySpace).reverse.dropWhile isPySpace).reverse)

/-- Python `a or b` for an optional string `a`: `b` unless `a` is a truthy
(non-empty) string. -/
def pyOr (a : Option String) (b : String) : String :=
  match a with
  | some s => if s = "" then b else s
  | none => b

/-- Truthiness of an optional string (`if x:` in Python). -/
def truthyStr (a : Option String) : Bool :=
  match a with
  | some s => s ≠ ""
  | none => false

/-- Truthiness of an optional integer (`if x:` in Python): present and
non-zero. -/
def truthyId (a : Option Nat) : Bool :=
  match a with
  | some n => n ≠ 0
  | none => false

/-- Boolean list-prefix test. -/
def startsWithL : List Char → List Char → Bool
  | [], _ => true
  | _ :: _, [] => false
  | a :: as, b :: bs => a = b && startsWithL as bs

/-- Boolean substring test on character lists. -/
def listSub (n : List Char) : List Char → Bool
  | [] => n.isEmpty
  | c :: rest => startsWithL n (c :: rest) || listSub n rest

/-- Python `needle in hay` on strings. -/
def pyInStr (needle hay : String) : Bool :=
  listSub needle.data hay.data

/-- `str.split(' ')` with a single-space separator: consecutive
separators yield empty fields and `"".split(' ') == ['']`. -/
def pySplitSpaceAux : List Char → List Char → List String
  | [], cur => [String.mk cur.reverse]
  | c :: rest, cur =>
    if c = ' ' then String.mk cur.reverse :: pySplitSpaceAux rest []
    else pySplitSpaceAux rest (c :: cur)

def pySplitSpace (s : String) : List String :=
  pySplitSpaceAux s.data []

/-- `str.replace(pat, repl)` on character lists: replace every
non-overlapping occurrence left to right (for non-empty `pat`). -/
def replaceAllAux (pat repl : List Char) : List Char → List Char
  | [] => []
  | c :: rest =>
    if pat ≠ [] && startsWithL pat (c :: rest) then
      repl ++ replaceAllAux pat repl (rest.drop (pat.length - 1))
    else c :: replaceAllAux pat repl rest
termination_by l => l.length
decreasing_by
  · simp [List.length_drop]
    omega
  · simp

/-- Python `s.replace(pat, repl)`. -/
def pyReplace (s pat repl : String) : String :=
  String.mk (replaceAllAux pat.data repl.data s.data)

/-! ### The regex `\b(PREFIX)\s?-?(\d+)\b` of `get_product_display_name`

The pattern is deterministic: after the literal prefix, a single optional
whitespace character, then a single optional hyphen, then a maximal run
of digits followed by a word boundary.  `re.search` returns the leftmost
position at which the whole pattern matches; the model scans positions
left to right. -/

/-- Case-insensitive literal-prefix match (the `(PREFIX)` group with
`re.IGNORECASE`); returns the remaining characters.  The prefixes in the
table are upper-case, so matched text upper-cased equals the prefix. -/
def stripPrefixCI : List Char → List Char → Option (List Char)
  | [], s => some s
  | _ :: _, [] => none
  | p :: ps, c :: cs => if c.toUpper = p then stripPrefixCI ps cs else none

/-- The tail `\s?-?(\d+)\b` of the pattern, applied right after the
prefix; returns the digits of group 2 on success. -/
def matchTail (s : List Char) : Option (List Char) :=
  let s1 := match s with
    | c :: r => if isPySpace c then r else s
    | [] => s
  let s2 := match s1 with
    | c :: r => if c = '-' then r else s1
    | [] => s1
  let ds := s2.takeWhile Char.isDigit
  let rest := s2.drop ds.length
  if ds.isEmpty then none
  else
    match rest with
    | [] => some ds
    | c :: _ => if isWordChar c then none else some ds

/-- Scan of `re.search`: try each start position left to right; `prev` is
the character before the current position (for the leading `\b`). -/
def searchAux (p : List Char) : Option Char → List Char → Option (List Char)
  | _, [] => none
  | prev, c :: rest =>
    let boundary := match prev with
      | none => true
      | some pc => !isWordChar pc
    match (if boundary then (stripPrefixCI p (c :: rest)).bind matchTail else none) with
    | some ds => some ds
    | none => searchAux p (some c) rest

/-- `re.search(rf'\b({prefix})\s?-?(\d+)\b', title, re.IGNORECASE)`,
returning the digits of group 2 of the leftmost match. -/
def searchPrefixDigits (p : String) (title : String) : Option String :=
  (searchAux p.data none title.data).map String.mk

/-! ### Static tables (source: module-level constants of both files) -/

def BASE_PRODUCT_MAPPING : List (String × String) :=
  [("DFP", "FilmPack"), ("DVP", "ViewPoint"), ("PR", "PureRaw"),
   ("PL", "PhotoLab"), ("NIK", "Nik Collection"), ("VP", "ViewPoint"),
   ("FP", "FilmPack")]

def REGEX_PREFIX_ORDER : List String :=
  ["DFP", "DVP", "PR", "PL", "NIK", "VP", "FP"]

def PRODUCT_ORDER_PRIORITY : List (String × Nat) :=
  [("PhotoLab", 1), ("Nik", 2), ("PureRaw", 3), ("FilmPack", 4),
   ("ViewPoint", 5), ("Nik Collection", 2)]

def DEFAULT_PRIORITY : Nat := 99

def ZENDESK_OWNER_EMAIL_TO_MONDAY_ID : List (String × Nat) :=
  [("asoni@dxo.com", 47981810), ("nbeaumont@dxo.com", 41505346),
   ("jcinquin@dxo.com", 45440204), ("msato@dxo.com", 45440202),
   ("sbakir@dxo.com", 45440162), ("mplant@dxo.com", 45440206),
   ("yshi@dxo.com", 45440205), ("kdare@dxo.com", 68681569),
   ("mandrianoelison@dxo.com", 69767169), ("mfernandes@dxo.com", 70228860)]

def STATUS_COLUMN_ID : String := "status"
def MAC_LINK_COLUMN_ID : String := "mac_dowload_link0"
def WIN_LINK_COLUMN_ID : String := "win_download_link"
def STATUS_LABEL_NOT_USED : String := "Not used"

/-! ### `get_product_display_name` (identical in both files) -/

/-- The `for prefix in REGEX_PREFIX_ORDER` loop: first matching prefix
with a truthy base name wins (`break`); otherwise the title is returned
unchanged. -/
def displayNameLoop (group_title : String) : List String → String
  | [] => group_title
  | p :: ps =>
    match searchPrefixDigits p group_title with
    | some ds =>
      match BASE_PRODUCT_MAPPING.lookup p with
      | some base => if base = "" then displayNameLoop group_title ps
                     else base ++ " " ++ ds
      | none => displayNameLoop group_title ps
    | none => displayNameLoop group_title ps

def get_product_display_name (group_title : String) : String :=
  displayNameLoop group_title REGEX_PREFIX_ORDER

/-! ### Data model of one run -/

/-- A Monday.com board group (id and title), as returned by
`fetch_monday_data`. -/
structure Group where
  id : String
  title : String
deriving Repr, DecidableEq

/-- The decoded `value` payload of a link column: the outcome of
`json.loads(cv["value"])` followed by `.get("url", "N/A")`.
`parseFail` is a `json.JSONDecodeError`/`TypeError` (caught, link stays
"N/A"); `nonDict` is a payload on which `.get` raises `AttributeError`
(caught by the per-item handler, which skips the item); `jdict url` is a
JSON object whose optional `url` field is `url`. -/
inductive LinkVal where
  | parseFail
  | nonDict
  | jdict (url : Option String)
deriving Repr, DecidableEq

/-- One entry of an item's `column_values`.  `text` is `cv.get("text")`;
`value` is `cv.get("value")` with `none` for an absent or falsy payload. -/
structure ColumnValue where
  id : String
  text : Option String
  value : Option LinkVal
deriving Repr, DecidableEq

/-- One board item as returned by the items query. -/
structure Item where
  id : String
  name : String
  column_values : List ColumnValue
deriving Repr, DecidableEq

/-- One element of `items_found_details`:
`(item_id, activation_code, product_display_name, mac_link_url,
win_link_url)`. -/
structure ItemDetail where
  itemId : String
  code : String
  displayName : String
  macUrl : String
  winUrl : String
deriving Repr, DecidableEq

/-- The note-creation response object; `id` is `create_response.get('id')`. -/
structure CreateResp where
  id : Option Nat
deriving Repr, DecidableEq

/-- Outcome of the direct note-tagging `PUT` call: an HTTP response with
status code and decoded error details, a `requests` network exception, or
any other exception. -/
inductive TagOutcome where
  | resp (statusCode : Nat) (details : String)
  | netErr (msg : String)
  | exn (msg : String)
deriving Repr, DecidableEq

/-- Ghost record of a board mutation issued during a run. -/
inductive MutCall where
  | statusCall (itemId : String)
  | personCall (itemId : String) (userId : Nat)
deriving Repr, DecidableEq

/-- The deterministic remote world of one run.  Each field is one remote
operation of the source, with `Except.error` carrying the exception or
error text the Python wrapper would produce/observe. -/
structure Env where
  /-- `get_zendesk_deal_owner_email`: `(email, None)` or `(None, error)`. -/
  ownerEmail : Except String String
  /-- `fetch_monday_data`: group list of the board, or an error message. -/
  fetchGroups : Except String (List Group)
  /-- Per group id, the full item list the (paginated) items query yields,
  or the exception text raised during fetching. -/
  fetchItems : String → Except String (List Item)
  /-- `z_client.notes.create`: the response object, or the exception text. -/
  createNote : String → String → Except String CreateResp
  /-- The direct tagging call for a given note id. -/
  tagNote : Nat → TagOutcome
  /-- `update_monday_item_status` for a given item id: `(True, None)` or
  `(False, error_msg)`. -/
  statusUpdate : String → Except String Unit
  /-- `update_monday_item_person` for a given item id and user id. -/
  personUpdate : String → Nat → Except String Unit

/-- Boolean success of a status update (the `update_ok` flag). -/
def statusOkB (env : Env) (itemId : String) : Bool :=
  match env.statusUpdate itemId with
  | .ok _ => true
  | .error _ => false

/-- Boolean success of a person assignment (the `person_ok` flag). -/
def personOkB (env : Env) (itemId : String) (userId : Nat) : Bool :=
  match env.personUpdate itemId userId with
  | .ok _ => true
  | .error _ => false

/-! ### Item scanning (the per-group inner loop of both versions) -/

/-- The `for cv in item["column_values"]` loop with its surrounding
`try/except`: threads `(status_val, mac_link_url, win_link_url)` through
the column values; `none` models the `except ... continue` that skips the
item when link-payload processing raises. -/
def processColumns : List ColumnValue → (Option String × String × String) →
    Option (Option String × String × String)
  | [], acc => some acc
  | cv :: rest, (sv, mac, win) =>
    if cv.id = STATUS_COLUMN_ID then
      processColumns rest (cv.text, mac, win)
    else if cv.id = MAC_LINK_COLUMN_ID then
      let m0 := pyOr cv.text "N/A"
      if m0 = "N/A" then
        match cv.value with
        | some (.jdict url) => processColumns rest (sv, url.getD "N/A", win)
        | some .parseFail => processColumns rest (sv, m0, win)
        | some .nonDict => none
        | none => processColumns rest (sv, m0, win)
      else processColumns rest (sv, m0, win)
    else if cv.id = WIN_LINK_COLUMN_ID then
      let w0 := pyOr cv.text "N/A"
      if w0 = "N/A" then
        match cv.value with
        | some (.jdict url) => processColumns rest (sv, mac, url.getD "N/A")
        | some .parseFail => processColumns rest (sv, mac, w0)
        | some .nonDict => none
        | none => processColumns rest (sv, mac, w0)
      else processColumns rest (sv, mac, w0)
    else processColumns rest (sv, mac, win)

/-- Whether an item would be selected: its columns process without an
exception and its status text equals the sentinel label. -/
def itemAvailable (it : Item) : Prop :=
  match processColumns it.column_values (none, "N/A", "N/A") with
  | some (sv, _, _) => sv = some STATUS_LABEL_NOT_USED
  | none => False

instance (it : Item) : Decidable (itemAvailable it) := by
  unfold itemAvailable
  exact match processColumns it.column_values (none, "N/A", "N/A") with
    | some (_, _, _) => inferInstanceAs (Decidable (_ = _))
    | none => inferInstanceAs (Decidable False)

/-- The `for item in reversed(items)` loop: first item (in the given
order) whose status is the sentinel becomes the group's `ItemDetail`. -/
def scanItems (pdn : String) : List Item → Option ItemDetail
  | [] => none
  | it :: rest =>
    match processColumns it.column_values (none, "N/A", "N/A") with
    | none => scanItems pdn rest
    | some (sv, mac, win) =>
      if sv = some STATUS_LABEL_NOT_USED then
        some ⟨it.id, it.name, pdn, mac, win⟩
      else scanItems pdn rest

/-- `group_map.get(group_id, f"Group ID {group_id}")`. -/
def groupDisplayTitle (gmap : List (String × String)) (gid : String) : String :=
  (gmap.lookup gid).getD ("Group ID " ++ gid)

/-- Step 1 of `process_activation_request`: the `for group_id in
group_ids` loop.  Returns `items_found_details` (in discovery order) and
`global_error` (the first group-level exception, if any). -/
def findCodes (env : Env) (gmap : List (String × String)) :
    List String → List ItemDetail × Option String
  | [] => ([], none)
  | g :: rest =>
    match env.fetchItems g with
    | .error e =>
      let r := findCodes env gmap rest
      (r.1, some ("Error during Monday.com processing: " ++ e))
    | .ok items =>
      let r := findCodes env gmap rest
      match scanItems (get_product_display_name (groupDisplayTitle gmap g))
          items.reverse with
      | some d => (d :: r.1, r.2)
      | none => r

/-- What one group contributes: the item detail it yields, if any. -/
def groupYield (env : Env) (gmap : List (String × String)) (g : String) :
    Option ItemDetail :=
  match env.fetchItems g with
  | .ok items =>
    scanItems (get_product_display_name (groupDisplayTitle gmap g)) items.reverse
  | .error _ => none

/-! ### `get_sort_key` and the stable priority sort -/

/-- The `for part in product_display_name.split(' ')` loop with its
`break` on the first purely-numeric token. -/
def basePartsLoop : List String → List String
  | [] => []
  | p :: ps => if pyIsDigitStr p then [] else p :: basePartsLoop ps

/-- `get_sort_key` of `process_activation_request` (identical in both
files), applied to an `ItemDetail` (index 2 is the display name). -/
def get_sort_key (d : ItemDetail) : Nat :=
  let parts := pySplitSpace d.displayName
  let base_name := " ".intercalate (basePartsLoop parts)
  let prio := PRODUCT_ORDER_PRIORITY.lookup base_name
  let prio2 :=
    match prio with
    | some p => some p
    | none =>
      if base_name.data.contains ' ' then
        PRODUCT_ORDER_PRIORITY.lookup ((pySplitSpace base_name).headD "")
      else none
  prio2.getD DEFAULT_PRIORITY

/-- Insertion before the first element whose key is not smaller: in
`sortByKey`, `x` precedes all input elements that follow it, so placing
`x` before equal-key elements preserves input order among equals. -/
def insertSorted {α : Type} (key : α → Nat) (x : α) : List α → List α
  | [] => [x]
  | y :: ys => if key x ≤ key y then x :: y :: ys else y :: insertSorted key x ys

/-- Stable sort by key, the model of Python's stable `list.sort(key=...)`:
any stable comparison sort computes the same output list. -/
def sortByKey {α : Type} (key : α → Nat) : List α → List α
  | [] => []
  | x :: xs => insertSorted key x (sortByKey key xs)

/-! ### Result type and message fragments -/

/-- The `(overall_success, message)` pair returned by
`process_activation_request`, extended with ghost instrumentation:
`calls` lists the board mutations the run issued (in order) and
`usedFallback` marks the trailing fallback `return` statement. -/
structure ProcResult where
  success : Bool
  message : String
  calls : List MutCall
  usedFallback : Bool
deriving Repr, DecidableEq

/-- Substring as lists of characters (`a` occurs inside `b`). -/
def strSub (a b : String) : Prop :=
  ∃ u v, u ++ a.data ++ v = b.data

def TARGET_STATUS_LABEL : String := "Sent & put in B2B CRM"

def statusSuccPart (n : Nat) : String :=
  "Updated status to \x27" ++ TARGET_STATUS_LABEL ++ "\x27 for " ++ toString n
    ++ " item(s) on Monday.com"

def statusFailPart (k n : Nat) : String :=
  "failed to update status for " ++ toString k ++ "/" ++ toString n ++ " item(s)"

def statusErrsPart (errs : List String) : String :=
  "(Status Errors: " ++ String.intercalate "; " errs ++ ")"

def noCodesMsg (deal : String) : String :=
  "No \x27" ++ STATUS_LABEL_NOT_USED
    ++ "\x27 activation codes found in the selected groups for Deal ID "
    ++ deal ++ "."

/-- The early `return` taken when no group yielded an item and no group
fetch raised (no mutation has been issued at that point). -/
def noCodesResult (deal : String) : ProcResult :=
  ⟨false, noCodesMsg deal, [], false⟩

/-- One line of the Zendesk note (Monday-CRM.py format, `||`-separated). -/
def noteEntryMonday (d : ItemDetail) : String :=
  let macs := if d.macUrl ≠ "N/A" then "[MAC Download Link](" ++ d.macUrl ++ ")"
              else "MAC Download Link: N/A"
  let wins := if d.winUrl ≠ "N/A" then "[WIN Download Link](" ++ d.winUrl ++ ")"
              else "WIN Download Link: N/A"
  "Product Name: " ++ d.displayName ++ " || Activation Code: " ++ d.code
    ++ " || " ++ macs ++ " || " ++ wins

/-- One note entry in Backup.py's multi-line format. -/
def noteEntryBackup (d : ItemDetail) : String :=
  "Product Name: " ++ d.displayName ++ "\n"
    ++ "Activation Code: " ++ d.code ++ "\n"
    ++ (if d.macUrl ≠ "N/A" then "[MAC Download Link](" ++ d.macUrl ++ ")\n"
        else "MAC Download Link: N/A\n")
    ++ (if d.winUrl ≠ "N/A" then "[WIN Download Link](" ++ d.winUrl ++ ")"
        else "WIN Download Link: N/A")

/-- `zendesk_note_content` from the per-item entries. -/
def noteContent (entries : List String) : String :=
  "Activation Codes\n\n" ++ String.intercalate "\n\n-----------\n\n" entries

/-! ### Note tagging (Monday-CRM.py only) -/

def noIdMsg : String :=
  "Note created, but could not get Note ID from response to update tags."

def tagFailMsg (nid code : Nat) (det : String) : String :=
  "Failed to tag note " ++ toString nid ++ " via direct API call. Status: "
    ++ toString code ++ ", Response: " ++ det

/-- The `note_tag_error_msg` the source formats for a given tagging
outcome (the 200 case never produces one; the value for it is unused). -/
def tagErrMsgOf (nid : Nat) : TagOutcome → String
  | .resp code det => tagFailMsg nid code det
  | .netErr m => "Network error while trying to tag note " ++ toString nid
      ++ " via direct API call: " ++ m
  | .exn m => "Unexpected error while trying to tag note " ++ toString nid
      ++ " via direct API call: " ++ m

/-- The tagging attempt after a successful note creation: yields
`(note_tag_success, note_tag_error_msg)`. -/
def tagAttempt (env : Env) (resp : CreateResp) : Bool × Option String :=
  match resp.id with
  | some nid =>
    if nid = 0 then (false, some noIdMsg)
    else
      match env.tagNote nid with
      | .resp code det =>
        if code = 200 then (true, none)
        else (false, some (tagErrMsgOf nid (.resp code det)))
      | .netErr m => (false, some (tagErrMsgOf nid (.netErr m)))
      | .exn m => (false, some (tagErrMsgOf nid (.exn m)))
  | none => (false, some noIdMsg)

/-! ### The per-item status/person mutation loop (identical in both files) -/

/-- Counters and error lists of the `for item_id, _, _, _, _ in
items_found_details` loop, plus the ghost trace of issued mutations. -/
structure UpdateRes where
  statusSucc : Nat
  statusFail : Nat
  statusErrs : List String
  persSucc : Nat
  persFail : Nat
  persErrs : List String
  calls : List MutCall
deriving Repr, DecidableEq

/-- The mutation loop: status update per item; only on status success and
with a truthy user id, the person assignment for that item. -/
def mondayUpdateLoop (env : Env) (uid : Option Nat) : List ItemDetail → UpdateRes
  | [] => ⟨0, 0, [], 0, 0, [], []⟩
  | d :: rest =>
    let r := mondayUpdateLoop env uid rest
    match env.statusUpdate d.itemId with
    | .ok _ =>
      match uid with
      | some u =>
        if u = 0 then
          ⟨r.statusSucc + 1, r.statusFail, r.statusErrs, r.persSucc, r.persFail,
           r.persErrs, .statusCall d.itemId :: r.calls⟩
        else
          match env.personUpdate d.itemId u with
          | .ok _ =>
            ⟨r.statusSucc + 1, r.statusFail, r.statusErrs, r.persSucc + 1,
             r.persFail, r.persErrs,
             .statusCall d.itemId :: .personCall d.itemId u :: r.calls⟩
          | .error m =>
            ⟨r.statusSucc + 1, r.statusFail, r.statusErrs, r.persSucc,
             r.persFail + 1, ("Item " ++ d.itemId ++ ": " ++ m) :: r.persErrs,
             .statusCall d.itemId :: .personCall d.itemId u :: r.calls⟩
      | none =>
        ⟨r.statusSucc + 1, r.statusFail, r.statusErrs, r.persSucc, r.persFail,
         r.persErrs, .statusCall d.itemId :: r.calls⟩
    | .error m =>
      ⟨r.statusSucc, r.statusFail + 1,
       ("Item " ++ d.itemId ++ ": " ++ m) :: r.statusErrs, r.persSucc,
       r.persFail, r.persErrs, .statusCall d.itemId :: r.calls⟩

/-! ### Monday-CRM.py's `process_activation_request` -/

/-- The owner warning set at the top of Monday-CRM.py's version (owner
email is a parameter there; the id lookup happened in the step-2 handler). -/
def mondayOwnerWarning (owner_email : String) (uid : Option Nat) : Option String :=
  if !truthyId uid && owner_email ≠ "" then
    some ("Warning: Owner email \x27" ++ owner_email
      ++ "\x27 not found in map. Person column will not be updated.")
  else none

def renderSuccessItem (p : String) : String :=
  "<li>✅ " ++ p ++ "</li>"

def renderIssueItem (p : String) : String :=
  "<li>" ++ (if pyInStr "failed" p then "❌" else "⚠️") ++ " " ++ p ++ "</li>"

/-- The `final_message += ...` accumulation over a list of parts. -/
def joinAll : List String → String
  | [] => ""
  | s :: r => s ++ joinAll r

/-- Monday-CRM.py's HTML summary message. -/
def buildFinalMessageMonday (succ fail : List String) : String :=
  "<b>Process Summary:</b><ul>" ++ joinAll (succ.map renderSuccessItem) ++ "</ul>"
    ++ (if fail.isEmpty then ""
        else "<br><b>Notes / Issues:</b><ul>" ++ joinAll (fail.map renderIssueItem)
          ++ "</ul>")

namespace MondayCRM

/-- `success_parts` of Monday-CRM.py's summary. -/
def successParts (deal owner_email : String) (tagOk : Bool) (r : UpdateRes) :
    List String :=
  ["Added note to Zendesk Deal " ++ deal]
    ++ (if tagOk then ["Tagged note with \x27LICENCE\x27"] else [])
    ++ (if r.statusSucc > 0 then [statusSuccPart r.statusSucc] else [])
    ++ (if r.persSucc > 0 then
          ["Assigned owner ("
            ++ (if owner_email ≠ "" then owner_email else "(Unknown Email)")
            ++ ") for " ++ toString r.persSucc ++ " item(s)"]
        else [])

/-- `failure_parts` of Monday-CRM.py's summary (`n` is the number of
found items). -/
def failureParts (tagErr owner_warning : Option String) (r : UpdateRes)
    (n : Nat) : List String :=
  (match tagErr with
   | some m => [m]
   | none => [])
    ++ (if r.statusFail > 0 then
          [statusFailPart r.statusFail n]
            ++ (if r.statusErrs.isEmpty then [] else [statusErrsPart r.statusErrs])
        else [])
    ++ (match owner_warning with
        | some w => [pyReplace w "Warning: " ""]
        | none => [])

/-- The `if zendesk_success:` block of Monday-CRM.py: tagging already
attempted, run the mutation loop, assemble the summary.
`final_overall_success` is initialised `True` and — note creation having
succeeded — never reassigned, so the result's flag is `true`. -/
def summarize (env : Env) (deal owner_email : String) (uid : Option Nat)
    (owner_warning : Option String) (details : List ItemDetail)
    (resp : CreateResp) : ProcResult :=
  let t := tagAttempt env resp
  let r := mondayUpdateLoop env uid details
  ⟨true,
   buildFinalMessageMonday (successParts deal owner_email t.1 r)
     (failureParts t.2 owner_warning r details.length),
   r.calls, false⟩

/-- Note creation and everything after it.  The `.error` branch is the
`except` handler around `notes.create`; on `.ok`, `zendesk_success` is
set to `True`, making the trailing fallback (ghost-marked `usedFallback`)
dead code — in Python that statement would in addition hit a `NameError`
on `zendesk_error_msg` whenever `global_error` is falsy. -/
def noteStage (env : Env) (deal owner_email : String) (uid : Option Nat)
    (owner_warning gerr : Option String) (details : List ItemDetail) : ProcResult :=
  match env.createNote deal (noteContent (details.map noteEntryMonday)) with
  | .error e =>
    ⟨false, pyOr gerr ("Failed to write note to Zendesk Deal ID " ++ deal ++ ": " ++ e),
     [], false⟩
  | .ok resp =>
    let zendesk_success := true
    if zendesk_success then summarize env deal owner_email uid owner_warning details resp
    else ⟨false, pyOr gerr "NameError: name \x27zendesk_error_msg\x27 is not defined",
          [], true⟩

/-- `process_activation_request` of Monday-CRM.py. -/
def process_activation_request (env : Env) (deal : String) (gids : List String)
    (gmap : List (String × String)) (owner_email : String) (uid : Option Nat) :
    ProcResult :=
  let owner_warning := mondayOwnerWarning owner_email uid
  let found := (findCodes env gmap gids).1
  let gerr := (findCodes env gmap gids).2
  let details := sortByKey get_sort_key found
  if details.isEmpty then
    match gerr with
    | some g => if g = "" then noCodesResult deal else ⟨false, g, [], false⟩
    | none => noCodesResult deal
  else noteStage env deal owner_email uid owner_warning gerr details

end MondayCRM

/-! ### Backup.py's `process_activation_request` -/

namespace Backup

/-- Backup.py's summary assembly: a status-update failure flips
`final_overall_success` to `False`; person-assignment failures do not. -/
def summarize (env : Env) (deal : String) (uid : Option Nat)
    (owner_warning : Option String) (details : List ItemDetail) : ProcResult :=
  let r := mondayUpdateLoop env uid details
  let base := ["Added note to Zendesk Deal " ++ deal]
  let sp1 := if r.statusFail = 0 then
               base ++ ["updated status for " ++ toString r.statusSucc
                 ++ " item(s) on Monday.com"]
             else base
  let fp1 := if r.statusFail = 0 then ([] : List String)
             else [statusFailPart r.statusFail details.length]
               ++ (if r.statusErrs.isEmpty then [] else [statusErrsPart r.statusErrs])
  let flag := r.statusFail == 0
  let sp2 := if truthyId uid then
               (if r.persFail = 0 && r.persSucc > 0 then
                  sp1 ++ ["assigned owner for " ++ toString r.persSucc ++ " item(s)"]
                else sp1)
             else sp1
  let fp2 := if truthyId uid then
               (if r.persFail = 0 then fp1
                else fp1 ++ ["failed to assign owner for " ++ toString r.persFail
                       ++ "/" ++ toString details.length ++ " item(s)"]
                  ++ (if r.persErrs.isEmpty then []
                      else ["(Owner Assign Errors: "
                        ++ String.intercalate "; " r.persErrs ++ ")"]))
             else
               match owner_warning with
               | some _ => fp1 ++ ["(Owner not assigned: owner email not mapped)"]
               | none => fp1
  let msg := "Process Summary: " ++ String.intercalate " & " sp2 ++ "."
    ++ (if fp2.isEmpty then ""
        else " However, " ++ pyStrip (String.intercalate " and " fp2) ++ ".")
  ⟨flag, msg, r.calls, false⟩

/-- `process_activation_request` of Backup.py: resolves the owner email
itself and hard-fails before touching the board when that errors or
comes back empty. -/
def process_activation_request (env : Env) (deal : String) (gids : List String)
    (gmap : List (String × String)) : ProcResult :=
  match env.ownerEmail with
  | .error e => ⟨false, e, [], false⟩
  | .ok owner_email =>
    if owner_email = "" then
      ⟨false, "Could not retrieve owner email for Zendesk Deal " ++ deal ++ ".",
       [], false⟩
    else
      let uid := ZENDESK_OWNER_EMAIL_TO_MONDAY_ID.lookup owner_email
      let owner_warning :=
        if truthyId uid then none
        else some ("Warning: Owner email \x27" ++ owner_email
          ++ "\x27 not found in ZENDESK_OWNER_EMAIL_TO_MONDAY_ID map."
          ++ " Person column will not be updated.")
      let found := (findCodes env gmap gids).1
      let gerr := (findCodes env gmap gids).2
      let details := sortByKey get_sort_key found
      if details.isEmpty then
        match gerr with
        | some g => if g = "" then noCodesResult deal else ⟨false, g, [], false⟩
        | none => noCodesResult deal
      else
        match env.createNote deal (noteContent (details.map noteEntryBackup)) with
        | .error e =>
          ⟨false,
           pyOr gerr ("Failed to write note to Zendesk Deal ID " ++ deal ++ ": " ++ e),
           [], false⟩
        | .ok _ =>
          let zendesk_success := true
          if zendesk_success then summarize env deal uid owner_warning details
          else ⟨false,
                pyOr gerr "An unknown error occurred before Monday update attempt.",
                [], true⟩

end Backup

/-! ### The step-1 wizard handler of Monday-CRM.py -/

/-- The slice of `st.session_state` the step handlers touch. -/
structure WizState where
  current_step : Nat
  deal_id : String
  owner_email : Option String
  all_groups : List Group
  selected_groups : List String
  show_error : Option String
deriving Repr, DecidableEq

/-- The step-1 form-submit handler of Monday-CRM.py: validates the deal
id, resolves the owner email, then fetches the board groups and advances
to step 2.  `st.rerun()` interrupts the script, so each error arm
returns immediately with the step unchanged. -/
def step1Submit (env : Env) (input : String) (st : WizState) : WizState :=
  let d := pyStrip input
  if !pyIsDigitStr d then
    { st with show_error := some "Please enter a valid numeric Deal ID." }
  else
    let st1 := { st with deal_id := d }
    match env.ownerEmail with
    | .error err => { st1 with show_error := some err }
    | .ok email =>
      if email = "" then
        let m := "Could not retrieve owner email for Zendesk Deal " ++ d ++ "."
        { st1 with show_error := some m }
      else
        let st2 := { st1 with owner_email := some email }
        match env.fetchGroups with
        | .error em => { st2 with show_error := some em }
        | .ok gs =>
          { st2 with all_groups := gs, selected_groups := [], current_step := 2,
                     show_error := none }

/-! ### Specification-side definitions (for refinement-style claims) -/

/-- A purely-numeric token, as the spec words it. -/
def specIsNumericToken (t : String) : Bool :=
  t ≠ "" && t.data.all Char.isDigit

/-- `ResultOrdering` as §4.2 of the spec words it: the base name is the
leading run of words before the first purely-numeric token; look it up in
the priority table; if absent and the base name contains a space, look up
its first word; otherwise the fixed default. -/
def specSortKey (name : String) : Nat :=
  let tokens := pySplitSpace name
  let base := " ".intercalate (tokens.takeWhile (fun t => !specIsNumericToken t))
  match PRODUCT_ORDER_PRIORITY.lookup base with
  | some p => p
  | none =>
    if base.data.contains ' ' then
      match PRODUCT_ORDER_PRIORITY.lookup ((pySplitSpace base).headD "") with
      | some p => p
      | none => DEFAULT_PRIORITY
    else DEFAULT_PRIORITY

/-- A tagging outcome the source counts as a failure of the tagging call
(anything except an HTTP 200 response). -/
def tagFails : TagOutcome → Prop
  | .resp code _ => code ≠ 200
  | .netErr _ => True
  | .exn _ => True

/-! ### Concrete environments for closed-instance theorems -/

/-- A board item whose status column reads the sentinel label. -/
def item1 : Item :=
  ⟨"it1", "CODE-1", [⟨STATUS_COLUMN_ID, some "Not used", none⟩]⟩

/-- A fully successful remote world with one group holding one available
item. -/
def envBase : Env where
  ownerEmail := .ok "asoni@dxo.com"
  fetchGroups := .ok [⟨"g1", "PL8 Elite"⟩]
  fetchItems := fun g => if g = "g1" then .ok [item1] else .ok []
  createNote := fun _ _ => .ok ⟨some 1⟩
  tagNote := fun _ => .resp 200 ""
  statusUpdate := fun _ => .ok ()
  personUpdate := fun _ _ => .ok ()

/-- Same world except every status-update mutation fails. -/
def envStatusFail : Env :=
  { envBase with statusUpdate := fun _ => .error "mutation rejected" }

/-- Same world except the note-tagging call returns HTTP 422. -/
def envTagFail : Env :=
  { envBase with tagNote := fun _ => .resp 422 "unprocessable" }

/-- Same world except owner resolution fails. -/
def envOwnerFail : Env :=
  { envBase with ownerEmail := .error "Zendesk Deal ID 123 not found." }

/-- Same world except every person-assignment mutation fails. -/
def envPersonFail : Env :=
  { envBase with personUpdate := fun _ _ => .error "boom" }

/-! ## Lemmas about the stable priority sort -/

theorem mem_insertSorted {α : Type} (key : α → Nat) (x : α) (l : List α) (a : α) :
    a ∈ insertSorted key x l ↔ a = x ∨ a ∈ l := by
  induction l with
  | nil => simp [insertSorted]
  | cons y ys ih =>
    simp only [insertSorted]
    split
    · simp [List.mem_cons]
    · simp only [List.mem_cons, ih]
      tauto

theorem pairwise_insertSorted {α : Type} (key : α → Nat) (x : α) (l : List α)
    (h : l.Pairwise (fun a b => key a ≤ key b)) :
    (insertSorted key x l).Pairwise (fun a b => key a ≤ key b) := by
  induction l with
  | nil => simp [insertSorted]
  | cons y ys ih =>
    rw [List.pairwise_cons] at h
    obtain ⟨hy, hys⟩ := h
    simp only [insertSorted]
    split
    case isTrue hxy =>
      rw [List.pairwise_cons]
      refine ⟨?_, ?_⟩
      · intro b hb
        rcases List.mem_cons.mp hb with rfl | hb
        · exact hxy
        · exact le_trans hxy (hy b hb)
      · rw [List.pairwise_cons]
        exact ⟨hy, hys⟩
    case isFalse hxy =>
      rw [List.pairwise_cons]
      refine ⟨?_, ih hys⟩
      intro b hb
      rcases (mem_insertSorted key x ys b).mp hb with rfl | hb
      · omega
      · exact hy b hb

theorem pairwise_sortByKey {α : Type} (key : α → Nat) (l : List α) :
    (sortByKey key l).Pairwise (fun a b => key a ≤ key b) := by
  induction l with
  | nil => simp [sortByKey]
  | cons x xs ih => exact pairwise_insertSorted key x _ ih

theorem perm_insertSorted {α : Type} (key : α → Nat) (x : α) (l : List α) :
    List.Perm (insertSorted key x l) (x :: l) := by
  induction l with
  | nil => simp [insertSorted]
  | cons y ys ih =>
    simp only [insertSorted]
    split
    · exact List.Perm.refl _
    · exact (List.Perm.cons y ih).trans (List.Perm.swap x y ys)

theorem perm_sortByKey {α : Type} (key : α → Nat) (l : List α) :
    List.Perm (sortByKey key l) l := by
  induction l with
  | nil => simp [sortByKey]
  | cons x xs ih =>
    exact (perm_insertSorted key x _).trans (List.Perm.cons x ih)

theorem filter_insertSorted {α : Type} (key : α → Nat) (x : α) (l : List α) (k : Nat) :
    (insertSorted key x l).filter (fun a => key a == k)
      = (x :: l).filter (fun a => key a == k) := by
  induction l with
  | nil => rfl
  | cons y ys ih =>
    simp only [insertSorted]
    split
    case isTrue => rfl
    case isFalse hxy =>
      have hylt : key y < key x := Nat.lt_of_not_le hxy
      by_cases hk : key x = k
      · have h1 : (key x == k) = true := by simpa using hk
        have h2 : (key y == k) = false := by
          simp only [beq_eq_false_iff_ne, ne_eq]
          omega
        simp only [List.filter_cons, h1, h2, ih, if_true, if_false, Bool.false_eq_true,
          reduceIte]
      · have h1 : (key x == k) = false := by simpa using hk
        simp only [List.filter_cons, h1, ih, Bool.false_eq_true, reduceIte]

theorem filter_sortByKey {α : Type} (key : α → Nat) (l : List α) (k : Nat) :
    (sortByKey key l).filter (fun a => key a == k) = l.filter (fun a => key a == k) := by
  induction l with
  | nil => rfl
  | cons x xs ih =>
    simp only [sortByKey]
    rw [filter_insertSorted]
    simp only [List.filter_cons, ih]

/-! ## C7: the priority sort is stable -/

/-- C7: the priority sort of found items is stable: it permutes the
input, orders it by non-decreasing `get_sort_key`, and among items of any
equal key value the output preserves the input (discovery) order — the
equal-key subsequence of the output is exactly the equal-key subsequence
of the input. -/
theorem claim7_sort_stable (l : List ItemDetail) (k : Nat) :
    List.Perm (sortByKey get_sort_key l) l
    ∧ (sortByKey get_sort_key l).Pairwise (fun a b => get_sort_key a ≤ get_sort_key b)
    ∧ (sortByKey get_sort_key l).filter (fun d => get_sort_key d == k)
        = l.filter (fun d => get_sort_key d == k) :=
  ⟨perm_sortByKey _ l, pairwise_sortByKey _ l, filter_sortByKey _ l k⟩

/-! ## C8: `get_sort_key` matches its specification -/

theorem basePartsLoop_eq_takeWhile (l : List String) :
    basePartsLoop l = l.takeWhile (fun p => !pyIsDigitStr p) := by
  induction l with
  | nil => rfl
  | cons p ps ih =>
    simp only [basePartsLoop, List.takeWhile_cons]
    cases h : pyIsDigitStr p <;> simp [h, ih]

theorem specIsNumericToken_eq (t : String) : specIsNumericToken t = pyIsDigitStr t := by
  cases t with
  | mk data => cases data <;> rfl

theorem get_sort_key_eq_spec (d : ItemDetail) :
    get_sort_key d = specSortKey d.displayName := by
  simp only [get_sort_key, specSortKey, basePartsLoop_eq_takeWhile, specIsNumericToken_eq]
  generalize " ".intercalate
      (List.takeWhile (fun p => !pyIsDigitStr p) (pySplitSpace d.displayName)) = base
  cases h1 : List.lookup base PRODUCT_ORDER_PRIORITY
  · simp only [h1]
    cases h2 : base.data.contains ' '
    · simp [h2]
    · simp only [h2, if_true]
      cases h3 : List.lookup ((pySplitSpace base).headD "") PRODUCT_ORDER_PRIORITY <;>
        simp [h3]
  · simp [h1]

/-- C8: for every found item, `get_sort_key` computes exactly the key the
spec describes (leading run of words before the first purely-numeric
token as base name; table lookup; first-word retry when the base name
contains a space; default 99 otherwise), and the default is strictly
greater than every priority-table entry, so unmatched items sort last. -/
theorem claim8_sort_key_spec :
    (∀ d : ItemDetail, get_sort_key d = specSortKey d.displayName)
    ∧ ∀ p ∈ PRODUCT_ORDER_PRIORITY, p.2 < DEFAULT_PRIORITY :=
  ⟨get_sort_key_eq_spec, by decide⟩

/-- Closed instance of C8 at concrete inputs. -/
theorem claim8_witness :
    get_sort_key ⟨"1", "c", "Nik Collection 7", "N/A", "N/A"⟩
      = specSortKey "Nik Collection 7"
    ∧ (("PhotoLab", 1) : String × Nat).2 < DEFAULT_PRIORITY :=
  ⟨claim8_sort_key_spec.1 ⟨"1", "c", "Nik Collection 7", "N/A", "N/A"⟩,
   claim8_sort_key_spec.2 ("PhotoLab", 1) (by decide)⟩

/-! ## C3: product display-name mapping -/

/-- C3: the mapper sends each title of the spec's test table to its
expected display name ("RandomGroup" is unchanged), and the longer
overlapping prefix always wins: whenever the `DFP` pattern matches a
title, the `DFP` mapping (FilmPack) is applied — not the textually
contained `FP` one — and likewise `DVP` (ViewPoint) beats `VP` whenever
`DFP` did not already match. -/
theorem claim3_product_name_table :
    (get_product_display_name "DFP-6" = "FilmPack 6"
      ∧ get_product_display_name "VP4" = "ViewPoint 4"
      ∧ get_product_display_name "NIK 7" = "Nik Collection 7"
      ∧ get_product_display_name "RandomGroup" = "RandomGroup")
    ∧ (∀ title ds : String, searchPrefixDigits "DFP" title = some ds →
        get_product_display_name title = "FilmPack " ++ ds)
    ∧ (∀ title ds : String, searchPrefixDigits "DFP" title = none →
        searchPrefixDigits "DVP" title = some ds →
        get_product_display_name title = "ViewPoint " ++ ds) := by
  refine ⟨by decide, ?_, ?_⟩
  · intro title ds h
    have hne : ¬("FilmPack" : String) = "" := by decide
    simp only [get_product_display_name, REGEX_PREFIX_ORDER, displayNameLoop, h,
      show List.lookup "DFP" BASE_PRODUCT_MAPPING = some "FilmPack" from by decide,
      hne, if_false]
    rw [show ("FilmPack" : String) ++ " " = "FilmPack " from by decide]
  · intro title ds h0 h
    have hne : ¬("ViewPoint" : String) = "" := by decide
    simp only [get_product_display_name, REGEX_PREFIX_ORDER, displayNameLoop, h0, h,
      show List.lookup "DVP" BASE_PRODUCT_MAPPING = some "ViewPoint" from by decide,
      hne, if_false]
    rw [show ("ViewPoint" : String) ++ " " = "ViewPoint " from by decide]

/-- Closed instance of C3's universal part at a concrete title. -/
theorem claim3_witness :
    searchPrefixDigits "DFP" "My DFP-12 Codes" = some "12"
    ∧ get_product_display_name "My DFP-12 Codes" = "FilmPack " ++ "12" :=
  ⟨by decide, claim3_product_name_table.2.1 "My DFP-12 Codes" "12" (by decide)⟩

/-! ## C2: the two implementations disagree on the success policy -/

/-- C2: a concrete run — one group, one available item, note creation
succeeds, the item's status update fails — on which Monday-CRM.py's
implementation still reports overall success while Backup.py's reports
failure: the two near-duplicate implementations are not equivalent. -/
theorem claim2_policy_divergence :
    (MondayCRM.process_activation_request envStatusFail "123" ["g1"]
        [("g1", "PL8 Elite")] "asoni@dxo.com"
        (ZENDESK_OWNER_EMAIL_TO_MONDAY_ID.lookup "asoni@dxo.com")).success = true
    ∧ (Backup.process_activation_request envStatusFail "123" ["g1"]
        [("g1", "PL8 Elite")]).success = false := by
  exact ⟨by decide, by decide⟩

/-! ## C10: the trailing fallback return is unreachable -/

/-- C10: in every run of Monday-CRM.py's `process_activation_request`
every path returns earlier (no-items branch, note-creation exception
handler, or post-note summary), so the final fallback statement — whose
evaluation would hit the undefined `zendesk_error_msg` — is never
executed. -/
theorem claim10_fallback_unreachable (env : Env) (deal : String) (gids : List String)
    (gmap : List (String × String)) (oe : String) (uid : Option Nat) :
    (MondayCRM.process_activation_request env deal gids gmap oe uid).usedFallback
      = false := by
  unfold MondayCRM.process_activation_request MondayCRM.noteStage
  dsimp only
  split
  · split
    · split <;> rfl
    · rfl
  · split
    · rfl
    · rfl

/-! ## Substring lemmas -/

theorem strSub_refl (a : String) : strSub a a :=
  ⟨[], [], by simp⟩

theorem strSub_appL (a b c : String) : strSub a b → strSub a (c ++ b) := by
  rintro ⟨u, v, h⟩
  exact ⟨c.data ++ u, v, by rw [String.data_append, ← h]; simp [List.append_assoc]⟩

theorem strSub_appR (a b c : String) : strSub a b → strSub a (b ++ c) := by
  rintro ⟨u, v, h⟩
  exact ⟨u, v ++ c.data, by rw [String.data_append, ← h]; simp [List.append_assoc]⟩

theorem strSub_trans (a b c : String) : strSub a b → strSub b c → strSub a c := by
  rintro ⟨u1, v1, h1⟩ ⟨u2, v2, h2⟩
  exact ⟨u2 ++ u1, v1 ++ v2, by rw [← h2, ← h1]; simp [List.append_assoc]⟩

theorem strSub_joinAll (p : String) (l : List String) (h : p ∈ l) :
    strSub p (joinAll l) := by
  induction l with
  | nil => cases h
  | cons s r ih =>
    simp only [joinAll]
    rcases List.mem_cons.mp h with rfl | h2
    · exact strSub_appR _ _ _ (strSub_refl p)
    · exact strSub_appL _ _ _ (ih h2)

theorem strSub_renderIssue (p : String) : strSub p (renderIssueItem p) := by
  unfold renderIssueItem
  exact strSub_appR _ _ _ (strSub_appL _ _ _ (strSub_refl p))

theorem strSub_buildFinal (p : String) (succ fail : List String) (h : p ∈ fail) :
    strSub p (buildFinalMessageMonday succ fail) := by
  have hne : fail.isEmpty = false := by
    cases fail
    · cases h
    · rfl
  unfold buildFinalMessageMonday
  rw [hne]
  simp only [Bool.false_eq_true, if_false]
  apply strSub_appL
  apply strSub_appR
  apply strSub_appL
  exact strSub_trans _ _ _ (strSub_renderIssue p)
    (strSub_joinAll _ _ (List.mem_map_of_mem _ h))

/-! ## Lemmas about `findCodes` and the scan -/

theorem scanItems_eq_none_iff (pdn : String) (items : List Item) :
    scanItems pdn items = none ↔ ∀ it ∈ items, ¬ itemAvailable it := by
  induction items with
  | nil => simp [scanItems]
  | cons it rest ih =>
    simp only [scanItems]
    cases hpc : processColumns it.column_values (none, "N/A", "N/A") with
    | none =>
      simp only [ih, List.forall_mem_cons, itemAvailable, hpc]
      tauto
    | some triple =>
      obtain ⟨sv, mac, win⟩ := triple
      by_cases hsv : sv = some STATUS_LABEL_NOT_USED
      · simp [hpc, hsv, itemAvailable, List.forall_mem_cons]
      · simp [hpc, hsv, itemAvailable, List.forall_mem_cons, ih]

theorem findCodes_fst (env : Env) (gmap : List (String × String)) (gids : List String) :
    (findCodes env gmap gids).1 = gids.filterMap (groupYield env gmap) := by
  induction gids with
  | nil => rfl
  | cons g rest ih =>
    simp only [findCodes, List.filterMap_cons]
    cases hf : env.fetchItems g with
    | error e => simp [hf, groupYield, ih]
    | ok items =>
      cases hs : scanItems (get_product_display_name (groupDisplayTitle gmap g))
          items.reverse with
      | none => simp [hf, hs, groupYield, ih]
      | some d => simp [hf, hs, groupYield, ih]

theorem findCodes_snd_none (env : Env) (gmap : List (String × String))
    (gids : List String)
    (hall : ∀ g ∈ gids, ∃ items, env.fetchItems g = .ok items) :
    (findCodes env gmap gids).2 = none := by
  induction gids with
  | nil => rfl
  | cons g rest ih =>
    obtain ⟨items, hitems⟩ := hall g (by simp)
    have hrest := ih fun g' hg' => hall g' (by simp [hg'])
    simp only [findCodes, hitems]
    cases hs : scanItems (get_product_display_name (groupDisplayTitle gmap g))
        items.reverse <;> simp [hrest]

theorem findCodes_skip (env : Env) (gmap : List (String × String)) (g : String)
    (items : List Item) (hf : env.fetchItems g = .ok items)
    (hn : scanItems (get_product_display_name (groupDisplayTitle gmap g))
      items.reverse = none)
    (l1 l2 : List String) :
    findCodes env gmap (l1 ++ g :: l2) = findCodes env gmap (l1 ++ l2) := by
  induction l1 with
  | nil => simp [findCodes, hf, hn]
  | cons a t ih =>
    simp only [List.cons_append, findCodes]
    cases hfa : env.fetchItems a with
    | error e => simp [ih]
    | ok ia =>
      cases hsa : scanItems (get_product_display_name (groupDisplayTitle gmap a))
          ia.reverse <;> simp [ih]

/-! ## Branch characterisations of Monday-CRM.py's orchestrator -/

theorem process_monday_noItems (env : Env) (deal : String) (gids : List String)
    (gmap : List (String × String)) (oe : String) (uid : Option Nat)
    (h : (sortByKey get_sort_key (findCodes env gmap gids).1).isEmpty = true)
    (hg : (findCodes env gmap gids).2 = none) :
    MondayCRM.process_activation_request env deal gids gmap oe uid
      = noCodesResult deal := by
  unfold MondayCRM.process_activation_request
  dsimp only
  simp [h, hg]

theorem process_monday_noteFail (env : Env) (deal : String) (gids : List String)
    (gmap : List (String × String)) (oe : String) (uid : Option Nat) (e : String)
    (h : (sortByKey get_sort_key (findCodes env gmap gids).1).isEmpty = false)
    (hc : env.createNote deal (noteContent
      ((sortByKey get_sort_key (findCodes env gmap gids).1).map noteEntryMonday))
      = .error e) :
    MondayCRM.process_activation_request env deal gids gmap oe uid
      = ⟨false, pyOr (findCodes env gmap gids).2
          ("Failed to write note to Zendesk Deal ID " ++ deal ++ ": " ++ e),
         [], false⟩ := by
  unfold MondayCRM.process_activation_request MondayCRM.noteStage
  dsimp only
  simp [h, hc]

theorem process_monday_noteOk (env : Env) (deal : String) (gids : List String)
    (gmap : List (String × String)) (oe : String) (uid : Option Nat)
    (resp : CreateResp)
    (h : (sortByKey get_sort_key (findCodes env gmap gids).1).isEmpty = false)
    (hc : env.createNote deal (noteContent
      ((sortByKey get_sort_key (findCodes env gmap gids).1).map noteEntryMonday))
      = .ok resp) :
    MondayCRM.process_activation_request env deal gids gmap oe uid
      = MondayCRM.summarize env deal oe uid (mondayOwnerWarning oe uid)
          (sortByKey get_sort_key (findCodes env gmap gids).1) resp := by
  unfold MondayCRM.process_activation_request MondayCRM.noteStage
  dsimp only
  simp [h, hc]

theorem sortByKey_isEmpty {α : Type} (key : α → Nat) (l : List α) :
    (sortByKey key l).isEmpty = l.isEmpty := by
  have hl := (perm_sortByKey key l).length_eq
  cases l with
  | nil => rfl
  | cons x xs =>
    cases hs : sortByKey key (x :: xs) with
    | nil =>
      rw [hs] at hl
      simp at hl
    | cons y ys => rfl

/-! ## Distinguishing message heads -/

theorem failMsg_head (deal e : String) :
    ("Failed to write note to Zendesk Deal ID " ++ deal ++ ": " ++ e).data.head?
      = some 'F' := by
  have h : ("Failed to write note to Zendesk Deal ID ").data
      = 'F' :: ("ailed to write note to Zendesk Deal ID ").data := by decide
  simp [String.data_append, h]

theorem noCodes_head (deal : String) : (noCodesMsg deal).data.head? = some 'N' := by
  have h : ("No \x27" : String).data = 'N' :: ("o \x27" : String).data := by decide
  simp [noCodesMsg, String.data_append, h]

theorem failMsg_ne_noCodes (deal deal2 e : String) :
    ("Failed to write note to Zendesk Deal ID " ++ deal2 ++ ": " ++ e)
      ≠ noCodesMsg deal := by
  intro hEq
  have h2 := congrArg (fun s : String => s.data.head?) hEq
  simp only [failMsg_head, noCodes_head] at h2
  exact absurd h2 (by decide)

/-! ## C4: owner-resolution failure stops the run before any mutation -/

/-- C4: when owner-email resolution returns an error or an empty email,
the workflow terminates with Failure before issuing any board mutation:
Backup.py's orchestrator returns failure with an empty mutation trace,
and Monday-CRM.py's step-1 handler keeps the wizard on step 1, so the
step-2 handler that would invoke the orchestrator is never reached. -/
theorem claim4_owner_failure_no_mutations (env : Env) (deal input : String)
    (gids : List String) (gmap : List (String × String)) (st : WizState)
    (h : (∃ e, env.ownerEmail = .error e) ∨ env.ownerEmail = .ok "")
    (hstep : st.current_step = 1) :
    (Backup.process_activation_request env deal gids gmap).success = false
    ∧ (Backup.process_activation_request env deal gids gmap).calls = []
    ∧ (step1Submit env input st).current_step = 1 := by
  have hb : (Backup.process_activation_request env deal gids gmap).success = false
      ∧ (Backup.process_activation_request env deal gids gmap).calls = [] := by
    unfold Backup.process_activation_request
    rcases h with ⟨e, he⟩ | he <;> rw [he] <;> simp
  refine ⟨hb.1, hb.2, ?_⟩
  unfold step1Submit
  rcases h with ⟨e, he⟩ | he <;> rw [he] <;>
    cases hdig : pyIsDigitStr (pyStrip input) <;> simp [hdig, hstep]

/-- Closed instance of C4 at a concrete failing environment. -/
theorem claim4_witness :
    (Backup.process_activation_request envOwnerFail "123" ["g1"]
        [("g1", "PL8 Elite")]).success = false
    ∧ (Backup.process_activation_request envOwnerFail "123" ["g1"]
        [("g1", "PL8 Elite")]).calls = []
    ∧ (step1Submit envOwnerFail "123" ⟨1, "", none, [], [], none⟩).current_step = 1 :=
  claim4_owner_failure_no_mutations envOwnerFail "123" "123" ["g1"]
    [("g1", "PL8 Elite")] ⟨1, "", none, [], [], none⟩
    (Or.inl ⟨"Zendesk Deal ID 123 not found.", rfl⟩) rfl

/-! ## C5: empty groups are skipped; failure only when nothing is found -/

/-- C5: with every group fetch succeeding, a selected group none of whose
items carries the sentinel "Not used" status contributes nothing to the
run (removing it from the selection changes neither the found items nor
the error state), and the run returns Failure with the "no codes found"
message exactly when no selected group yields an available item. -/
theorem claim5_no_codes_iff (env : Env) (deal oe : String) (uid : Option Nat)
    (gmap : List (String × String)) (gids : List String)
    (hfetch : ∀ g ∈ gids, ∃ items, env.fetchItems g = .ok items) :
    (∀ (l1 l2 : List String) (g : String) (items : List Item),
        env.fetchItems g = .ok items →
        (∀ it ∈ items, ¬ itemAvailable it) →
        findCodes env gmap (l1 ++ g :: l2) = findCodes env gmap (l1 ++ l2))
    ∧ (((MondayCRM.process_activation_request env deal gids gmap oe uid).success = false
        ∧ (MondayCRM.process_activation_request env deal gids gmap oe uid).message
            = noCodesMsg deal)
       ↔ ∀ g ∈ gids, groupYield env gmap g = none) := by
  have hgerr : (findCodes env gmap gids).2 = none :=
    findCodes_snd_none env gmap gids hfetch
  constructor
  · intro l1 l2 g items hf hn
    refine findCodes_skip env gmap g items hf ?_ l1 l2
    rw [scanItems_eq_none_iff]
    intro it hit
    exact hn it (List.mem_reverse.mp hit)
  · constructor
    · rintro ⟨hsucc, hmsg⟩ g hg
      cases hy : groupYield env gmap g with
      | none => rfl
      | some d =>
        exfalso
        have hmem : d ∈ (findCodes env gmap gids).1 := by
          rw [findCodes_fst]
          exact List.mem_filterMap.mpr ⟨g, hg, hy⟩
        have hE : (sortByKey get_sort_key (findCodes env gmap gids).1).isEmpty
            = false := by
          rw [sortByKey_isEmpty]
          cases hcase : (findCodes env gmap gids).1 with
          | nil => rw [hcase] at hmem; cases hmem
          | cons a t => rfl
        cases hcn : env.createNote deal (noteContent
            ((sortByKey get_sort_key (findCodes env gmap gids).1).map
              noteEntryMonday)) with
        | error e =>
          rw [process_monday_noteFail env deal gids gmap oe uid e hE hcn] at hmsg
          rw [hgerr] at hmsg
          exact failMsg_ne_noCodes deal deal e hmsg
        | ok resp =>
          rw [process_monday_noteOk env deal gids gmap oe uid resp hE hcn] at hsucc
          exact Bool.noConfusion hsucc
    · intro hall
      have hnil : (findCodes env gmap gids).1 = [] := by
        rw [findCodes_fst]
        exact List.filterMap_eq_nil_iff.mpr hall
      have hE : (sortByKey get_sort_key (findCodes env gmap gids).1).isEmpty
          = true := by
        rw [sortByKey_isEmpty, hnil]
        rfl
      rw [process_monday_noItems env deal gids gmap oe uid hE hgerr]
      exact ⟨rfl, rfl⟩

/-- Closed instance of C5 at a concrete environment whose single group
holds no available item. -/
theorem claim5_witness :
    (MondayCRM.process_activation_request
        { envBase with fetchItems := fun _ => .ok [] } "123" ["g1"]
        [("g1", "PL8 Elite")] "asoni@dxo.com" (some 47981810)).success = false
    ∧ (MondayCRM.process_activation_request
        { envBase with fetchItems := fun _ => .ok [] } "123" ["g1"]
        [("g1", "PL8 Elite")] "asoni@dxo.com" (some 47981810)).message
        = noCodesMsg "123" := by
  have h := (claim5_no_codes_iff { envBase with fetchItems := fun _ => .ok [] }
    "123" "asoni@dxo.com" (some 47981810) [("g1", "PL8 Elite")] ["g1"]
    (by intro g _; exact ⟨[], rfl⟩)).2
  exact h.mpr (by intro g _; rfl)

/-! ## Decidability bridge for the substring predicate -/

theorem startsWithL_iff (n : List Char) : ∀ h : List Char,
    startsWithL n h = true ↔ ∃ t, n ++ t = h := by
  induction n with
  | nil =>
    intro h
    simp [startsWithL]
  | cons a as ih =>
    intro h
    cases h with
    | nil => simp [startsWithL]
    | cons b bs =>
      simp only [startsWithL, Bool.and_eq_true, decide_eq_true_eq, ih]
      constructor
      · rintro ⟨rfl, t, rfl⟩
        exact ⟨t, rfl⟩
      · rintro ⟨t, ht⟩
        injection ht with h1 h2
        exact ⟨h1, t, h2⟩

theorem listSub_iff (n : List Char) : ∀ h : List Char,
    listSub n h = true ↔ ∃ u v, u ++ n ++ v = h := by
  intro h
  induction h with
  | nil =>
    simp only [listSub, List.isEmpty_iff]
    constructor
    · rintro rfl
      exact ⟨[], [], rfl⟩
    · rintro ⟨u, v, huv⟩
      rcases List.append_eq_nil.mp huv with ⟨h1, h2⟩
      exact (List.append_eq_nil.mp h1).2
  | cons c rest ih =>
    simp only [listSub, Bool.or_eq_true, ih, startsWithL_iff]
    constructor
    · rintro (⟨t, ht⟩ | ⟨u, v, huv⟩)
      · exact ⟨[], t, by simp [ht]⟩
      · exact ⟨c :: u, v, by simp [huv]⟩
    · rintro ⟨u, v, huv⟩
      cases u with
      | nil => exact Or.inl ⟨v, by simpa using huv⟩
      | cons x xs =>
        right
        injection huv with h1 h2
        exact ⟨xs, v, h2⟩

theorem strSub_iff_listSub (a b : String) :
    strSub a b ↔ listSub a.data b.data = true :=
  (listSub_iff a.data b.data).symm

/-! ## Membership in the summary's failure parts -/

theorem mem_failureParts_statusFail (tagErr w : Option String) (r : UpdateRes)
    (n : Nat) (h : r.statusFail > 0) :
    statusFailPart r.statusFail n ∈ MondayCRM.failureParts tagErr w r n := by
  unfold MondayCRM.failureParts
  simp [h, List.mem_append]

theorem mem_failureParts_tagErr (m : String) (w : Option String) (r : UpdateRes)
    (n : Nat) : m ∈ MondayCRM.failureParts (some m) w r n := by
  unfold MondayCRM.failureParts
  simp [List.mem_append]

/-! ## C1: status/assignment failures do not flip the run to failure -/

/-- C1: in every Monday-CRM.py run that reaches and succeeds at note
creation (some item was found and the create call returned a response),
the overall-success flag is `true` whatever the per-item status-update
and owner-assignment outcomes are — the environment is arbitrary here —
and a positive status-failure count surfaces only as the itemised
"failed to update status for k/n item(s)" entry inside the summary
message. -/
theorem claim1_soft_failures (env : Env) (deal oe : String) (uid : Option Nat)
    (gids : List String) (gmap : List (String × String)) (resp : CreateResp)
    (hne : (findCodes env gmap gids).1 ≠ [])
    (hcr : env.createNote deal (noteContent
      ((sortByKey get_sort_key (findCodes env gmap gids).1).map noteEntryMonday))
      = .ok resp) :
    (MondayCRM.process_activation_request env deal gids gmap oe uid).success = true
    ∧ ((mondayUpdateLoop env uid
          (sortByKey get_sort_key (findCodes env gmap gids).1)).statusFail > 0 →
        strSub (statusFailPart
            (mondayUpdateLoop env uid
              (sortByKey get_sort_key (findCodes env gmap gids).1)).statusFail
            (sortByKey get_sort_key (findCodes env gmap gids).1).length)
          (MondayCRM.process_activation_request env deal gids gmap oe uid).message) := by
  have hE : (sortByKey get_sort_key (findCodes env gmap gids).1).isEmpty = false := by
    rw [sortByKey_isEmpty]
    cases h : (findCodes env gmap gids).1
    · exact absurd h hne
    · rfl
  rw [process_monday_noteOk env deal gids gmap oe uid resp hE hcr]
  refine ⟨rfl, ?_⟩
  intro hsf
  unfold MondayCRM.summarize
  dsimp only
  exact strSub_buildFinal _ _ _ (mem_failureParts_statusFail _ _ _ _ hsf)

/-- Closed instance of C1: every status update fails, yet the run
succeeds and the summary itemises the failures. -/
theorem claim1_witness :
    (MondayCRM.process_activation_request envStatusFail "123" ["g1"]
      [("g1", "PL8 Elite")] "asoni@dxo.com" (some 47981810)).success = true
    ∧ strSub (statusFailPart 1 1)
        (MondayCRM.process_activation_request envStatusFail "123" ["g1"]
          [("g1", "PL8 Elite")] "asoni@dxo.com" (some 47981810)).message := by
  have h := claim1_soft_failures envStatusFail "123" "asoni@dxo.com" (some 47981810)
    ["g1"] [("g1", "PL8 Elite")] ⟨some 1⟩ (by decide) rfl
  refine ⟨h.1, ?_⟩
  have h2 := h.2 (by decide)
  rw [show (mondayUpdateLoop envStatusFail (some 47981810)
        (sortByKey get_sort_key
          (findCodes envStatusFail [("g1", "PL8 Elite")] ["g1"]).1)).statusFail = 1
      from by decide,
    show (sortByKey get_sort_key
        (findCodes envStatusFail [("g1", "PL8 Elite")] ["g1"]).1).length = 1
      from by decide] at h2
  exact h2

/-- C1 counterexample: a concrete run in which the single item's
owner-assignment mutation fails (with error text "boom"): the run still
returns success, but the summary message contains no trace of the
assignment failure — the error text appears nowhere — refuting the part
of C1 that says assignment failures appear as itemized warning entries
in the summary message. -/
theorem claim1_counterexample :
    (mondayUpdateLoop envPersonFail (some 47981810)
      (sortByKey get_sort_key
        (findCodes envPersonFail [("g1", "PL8 Elite")] ["g1"]).1)).persFail = 1
    ∧ (MondayCRM.process_activation_request envPersonFail "123" ["g1"]
        [("g1", "PL8 Elite")] "asoni@dxo.com" (some 47981810)).success = true
    ∧ ¬ strSub "boom"
        (MondayCRM.process_activation_request envPersonFail "123" ["g1"]
          [("g1", "PL8 Elite")] "asoni@dxo.com" (some 47981810)).message := by
  refine ⟨by decide, by decide, ?_⟩
  rw [strSub_iff_listSub]
  decide

/-! ## C6: tagging failure is non-fatal and surfaces in the summary -/

/-- C6: when the note is created (with a usable note id) but the tagging
call fails, the run still returns overall success `true`, and the
formatted tagging-failure message appears inside the returned summary. -/
theorem claim6_tag_failure_soft (env : Env) (deal oe : String) (uid : Option Nat)
    (gids : List String) (gmap : List (String × String)) (resp : CreateResp)
    (nid : Nat)
    (hne : (findCodes env gmap gids).1 ≠ [])
    (hcr : env.createNote deal (noteContent
      ((sortByKey get_sort_key (findCodes env gmap gids).1).map noteEntryMonday))
      = .ok resp)
    (hid : resp.id = some nid) (hnz : nid ≠ 0)
    (hfail : tagFails (env.tagNote nid)) :
    (MondayCRM.process_activation_request env deal gids gmap oe uid).success = true
    ∧ strSub (tagErrMsgOf nid (env.tagNote nid))
        (MondayCRM.process_activation_request env deal gids gmap oe uid).message := by
  have hE : (sortByKey get_sort_key (findCodes env gmap gids).1).isEmpty = false := by
    rw [sortByKey_isEmpty]
    cases h : (findCodes env gmap gids).1
    · exact absurd h hne
    · rfl
  rw [process_monday_noteOk env deal gids gmap oe uid resp hE hcr]
  have htag : tagAttempt env resp
      = (false, some (tagErrMsgOf nid (env.tagNote nid))) := by
    unfold tagAttempt
    rw [hid]
    dsimp only
    rw [if_neg hnz]
    cases ho : env.tagNote nid with
    | resp code det =>
      rw [ho] at hfail
      simp only [tagFails] at hfail
      simp [hfail]
    | netErr m => simp
    | exn m => simp
  refine ⟨rfl, ?_⟩
  unfold MondayCRM.summarize
  dsimp only
  rw [htag]
  exact strSub_buildFinal _ _ _ (mem_failureParts_tagErr _ _ _ _)

/-- Closed instance of C6: note created, tagging returns HTTP 422. -/
theorem claim6_witness :
    (MondayCRM.process_activation_request envTagFail "123" ["g1"]
      [("g1", "PL8 Elite")] "asoni@dxo.com" (some 47981810)).success = true
    ∧ strSub (tagErrMsgOf 1 (envTagFail.tagNote 1))
        (MondayCRM.process_activation_request envTagFail "123" ["g1"]
          [("g1", "PL8 Elite")] "asoni@dxo.com" (some 47981810)).message :=
  claim6_tag_failure_soft envTagFail "123" "asoni@dxo.com" (some 47981810) ["g1"]
    [("g1", "PL8 Elite")] ⟨some 1⟩ 1 (by decide) rfl rfl (by decide)
    (by simp [envTagFail, envBase, tagFails])

/-! ## Lemmas about the mutation loop -/

theorem loop_statusSucc (env : Env) (uid : Option Nat) (ds : List ItemDetail) :
    (mondayUpdateLoop env uid ds).statusSucc
      = ds.countP (fun d => statusOkB env d.itemId) := by
  induction ds with
  | nil => rfl
  | cons d rest ih =>
    cases hs : env.statusUpdate d.itemId with
    | ok u =>
      have hb : statusOkB env d.itemId = true := by simp [statusOkB, hs]
      cases uid with
      | none => simp [mondayUpdateLoop, hs, hb, ih, List.countP_cons]
      | some u2 =>
        by_cases hz : u2 = 0
        · subst hz
          simp [mondayUpdateLoop, hs, hb, ih, List.countP_cons]
        · cases hp : env.personUpdate d.itemId u2 <;>
            simp [mondayUpdateLoop, hs, hz, hp, hb, ih, List.countP_cons]
    | error m =>
      have hb : statusOkB env d.itemId = false := by simp [statusOkB, hs]
      simp [mondayUpdateLoop, hs, hb, ih, List.countP_cons]

theorem loop_statusFail (env : Env) (uid : Option Nat) (ds : List ItemDetail) :
    (mondayUpdateLoop env uid ds).statusFail
      = ds.countP (fun d => !statusOkB env d.itemId) := by
  induction ds with
  | nil => rfl
  | cons d rest ih =>
    cases hs : env.statusUpdate d.itemId with
    | ok u =>
      have hb : statusOkB env d.itemId = true := by simp [statusOkB, hs]
      cases uid with
      | none => simp [mondayUpdateLoop, hs, hb, ih, List.countP_cons]
      | some u2 =>
        by_cases hz : u2 = 0
        · subst hz
          simp [mondayUpdateLoop, hs, hb, ih, List.countP_cons]
        · cases hp : env.personUpdate d.itemId u2 <;>
            simp [mondayUpdateLoop, hs, hz, hp, hb, ih, List.countP_cons]
    | error m =>
      have hb : statusOkB env d.itemId = false := by simp [statusOkB, hs]
      simp [mondayUpdateLoop, hs, hb, ih, List.countP_cons]

theorem loop_pers_untruthy (env : Env) (uid : Option Nat)
    (h : truthyId uid = false) (ds : List ItemDetail) :
    (mondayUpdateLoop env uid ds).persSucc = 0
    ∧ (mondayUpdateLoop env uid ds).persFail = 0
    ∧ ∀ i u, MutCall.personCall i u ∉ (mondayUpdateLoop env uid ds).calls := by
  induction ds with
  | nil => exact ⟨rfl, rfl, by intro i u hmem; simp [mondayUpdateLoop] at hmem⟩
  | cons d rest ih =>
    obtain ⟨ih1, ih2, ih3⟩ := ih
    have step : ∀ i u, MutCall.personCall i u
        ≠ MutCall.statusCall d.itemId := by intro i u hne; cases hne
    cases uid with
    | none =>
      cases hs : env.statusUpdate d.itemId with
      | ok u =>
        refine ⟨by simp [mondayUpdateLoop, hs, ih1], by simp [mondayUpdateLoop, hs, ih2], ?_⟩
        intro i u2
        simp only [mondayUpdateLoop, hs, List.mem_cons]
        rintro (hc | hc)
        · exact MutCall.noConfusion hc
        · exact ih3 i u2 hc
      | error m =>
        refine ⟨by simp [mondayUpdateLoop, hs, ih1], by simp [mondayUpdateLoop, hs, ih2], ?_⟩
        intro i u2
        simp only [mondayUpdateLoop, hs, List.mem_cons]
        rintro (hc | hc)
        · exact MutCall.noConfusion hc
        · exact ih3 i u2 hc
    | some u0 =>
      have hz : u0 = 0 := by simpa [truthyId] using h
      subst hz
      cases hs : env.statusUpdate d.itemId with
      | ok u =>
        refine ⟨by simp [mondayUpdateLoop, hs, ih1],
          by simp [mondayUpdateLoop, hs, ih2], ?_⟩
        intro i u2
        simp only [mondayUpdateLoop, hs, if_true, List.mem_cons]
        rintro (hc | hc)
        · exact MutCall.noConfusion hc
        · exact ih3 i u2 hc
      | error m =>
        refine ⟨by simp [mondayUpdateLoop, hs, ih1], by simp [mondayUpdateLoop, hs, ih2], ?_⟩
        intro i u2
        simp only [mondayUpdateLoop, hs, List.mem_cons]
        rintro (hc | hc)
        · exact MutCall.noConfusion hc
        · exact ih3 i u2 hc

theorem loop_pers_truthy (env : Env) (u : Nat) (hu : u ≠ 0) (ds : List ItemDetail) :
    (mondayUpdateLoop env (some u) ds).persSucc
        = ds.countP (fun d => statusOkB env d.itemId && personOkB env d.itemId u)
    ∧ (mondayUpdateLoop env (some u) ds).persFail
        = ds.countP (fun d => statusOkB env d.itemId && !personOkB env d.itemId u)
    ∧ ∀ i v, MutCall.personCall i v ∈ (mondayUpdateLoop env (some u) ds).calls
        ↔ v = u ∧ statusOkB env i = true ∧ ∃ d ∈ ds, d.itemId = i := by
  induction ds with
  | nil =>
    refine ⟨rfl, rfl, ?_⟩
    intro i v
    simp [mondayUpdateLoop]
  | cons d rest ih =>
    obtain ⟨ih1, ih2, ih3⟩ := ih
    cases hs : env.statusUpdate d.itemId with
    | ok uu =>
      have hb : statusOkB env d.itemId = true := by simp [statusOkB, hs]
      have hmain : ∀ i v,
          MutCall.personCall i v
              ∈ MutCall.statusCall d.itemId :: MutCall.personCall d.itemId u
                  :: (mondayUpdateLoop env (some u) rest).calls
            ↔ v = u ∧ statusOkB env i = true ∧ ∃ d2 ∈ d :: rest, d2.itemId = i := by
        intro i v
        simp only [List.mem_cons]
        constructor
        · rintro (hc | hc | hc)
          · exact MutCall.noConfusion hc
          · injection hc with h1 h2
            subst h1
            subst h2
            exact ⟨rfl, hb, ⟨d, Or.inl rfl, rfl⟩⟩
          · obtain ⟨hv, hok, d2, hd2, hid2⟩ := (ih3 i v).mp hc
            exact ⟨hv, hok, d2, Or.inr hd2, hid2⟩
        · rintro ⟨rfl, hok, d2, hd2, hid2⟩
          rcases hd2 with rfl | hd2
          · right; left
            rw [hid2]
          · right; right
            exact (ih3 i _).mpr ⟨rfl, hok, d2, hd2, hid2⟩
      cases hp : env.personUpdate d.itemId u with
      | ok _ =>
        have hpb : personOkB env d.itemId u = true := by simp [personOkB, hp]
        refine ⟨by simp [mondayUpdateLoop, hs, hu, hp, ih1, List.countP_cons, hb, hpb],
          by simp [mondayUpdateLoop, hs, hu, hp, ih2, List.countP_cons, hb, hpb], ?_⟩
        intro i v
        have hcalls : (mondayUpdateLoop env (some u) (d :: rest)).calls
            = MutCall.statusCall d.itemId :: MutCall.personCall d.itemId u
                :: (mondayUpdateLoop env (some u) rest).calls := by
          simp [mondayUpdateLoop, hs, hu, hp]
        rw [hcalls]
        exact hmain i v
      | error m =>
        have hpb : personOkB env d.itemId u = false := by simp [personOkB, hp]
        refine ⟨by simp [mondayUpdateLoop, hs, hu, hp, ih1, List.countP_cons, hb, hpb],
          by simp [mondayUpdateLoop, hs, hu, hp, ih2, List.countP_cons, hb, hpb], ?_⟩
        intro i v
        have hcalls : (mondayUpdateLoop env (some u) (d :: rest)).calls
            = MutCall.statusCall d.itemId :: MutCall.personCall d.itemId u
                :: (mondayUpdateLoop env (some u) rest).calls := by
          simp [mondayUpdateLoop, hs, hu, hp]
        rw [hcalls]
        exact hmain i v
    | error m =>
      have hb : statusOkB env d.itemId = false := by simp [statusOkB, hs]
      refine ⟨by simp [mondayUpdateLoop, hs, ih1, List.countP_cons, hb],
        by simp [mondayUpdateLoop, hs, ih2, List.countP_cons, hb], ?_⟩
      intro i v
      have hcalls : (mondayUpdateLoop env (some u) (d :: rest)).calls
          = MutCall.statusCall d.itemId
              :: (mondayUpdateLoop env (some u) rest).calls := by
        simp [mondayUpdateLoop, hs]
      rw [hcalls]
      simp only [List.mem_cons]
      constructor
      · rintro (hc | hc)
        · exact MutCall.noConfusion hc
        · obtain ⟨hv, hok, d2, hd2, hid2⟩ := (ih3 i v).mp hc
          exact ⟨hv, hok, d2, Or.inr hd2, hid2⟩
      · rintro ⟨rfl, hok, d2, hd2, hid2⟩
        rcases hd2 with rfl | hd2
        · rw [← hid2, hb] at hok
          cases hok
        · right
          exact (ih3 i _).mpr ⟨rfl, hok, d2, hd2, hid2⟩

/-! ## The static assignee table has no zero ids -/

theorem lookup_nonzero_gen (l : List (String × Nat))
    (hl : ∀ p ∈ l, p.2 ≠ 0) :
    ∀ e u, l.lookup e = some u → u ≠ 0 := by
  induction l with
  | nil =>
    intro e u h
    simp [List.lookup] at h
  | cons p t ih =>
    intro e u h
    obtain ⟨k, b⟩ := p
    simp only [List.lookup] at h
    cases hek : (e == k) with
    | true =>
      rw [hek] at h
      simp only [Option.some.injEq] at h
      exact h ▸ hl (k, b) (List.mem_cons_self _ _)
    | false =>
      rw [hek] at h
      exact ih (fun q hq => hl q (List.mem_cons_of_mem _ hq)) e u h

theorem lookup_email_nonzero (e : String) (u : Nat)
    (h : ZENDESK_OWNER_EMAIL_TO_MONDAY_ID.lookup e = some u) : u ≠ 0 :=
  lookup_nonzero_gen ZENDESK_OWNER_EMAIL_TO_MONDAY_ID (by decide) e u h

/-! ## C9: assignment is attempted iff status succeeded and email mapped -/

/-- C9: in the mutation loop run with the user id looked up from the
owner's email, an owner-assignment mutation for an item is issued iff the
status update for that item succeeded and the email has a table entry;
with an unmapped email no assignment is ever issued and (for a non-empty
email) the owner warning is recorded; and every counter counts the
per-item outcomes independently. -/
theorem claim9_assignment_policy (env : Env) (details : List ItemDetail)
    (email : String) :
    (∀ d ∈ details,
      ((∃ u, MutCall.personCall d.itemId u
          ∈ (mondayUpdateLoop env (ZENDESK_OWNER_EMAIL_TO_MONDAY_ID.lookup email)
              details).calls)
        ↔ (statusOkB env d.itemId = true
            ∧ (ZENDESK_OWNER_EMAIL_TO_MONDAY_ID.lookup email).isSome = true)))
    ∧ (ZENDESK_OWNER_EMAIL_TO_MONDAY_ID.lookup email = none →
        (∀ i u, MutCall.personCall i u
            ∉ (mondayUpdateLoop env (ZENDESK_OWNER_EMAIL_TO_MONDAY_ID.lookup email)
                details).calls)
          ∧ (email ≠ "" →
              mondayOwnerWarning email (ZENDESK_OWNER_EMAIL_TO_MONDAY_ID.lookup email)
                ≠ none))
    ∧ (mondayUpdateLoop env (ZENDESK_OWNER_EMAIL_TO_MONDAY_ID.lookup email)
        details).statusSucc = details.countP (fun d => statusOkB env d.itemId)
    ∧ (mondayUpdateLoop env (ZENDESK_OWNER_EMAIL_TO_MONDAY_ID.lookup email)
        details).statusFail = details.countP (fun d => !statusOkB env d.itemId)
    ∧ ∀ u, ZENDESK_OWNER_EMAIL_TO_MONDAY_ID.lookup email = some u →
        (mondayUpdateLoop env (some u) details).persSucc
            = details.countP
                (fun d => statusOkB env d.itemId && personOkB env d.itemId u)
        ∧ (mondayUpdateLoop env (some u) details).persFail
            = details.countP
                (fun d => statusOkB env d.itemId && !personOkB env d.itemId u) := by
  refine ⟨?_, ?_, loop_statusSucc env _ details, loop_statusFail env _ details, ?_⟩
  · intro d hd
    cases h : ZENDESK_OWNER_EMAIL_TO_MONDAY_ID.lookup email with
    | none =>
      have hun := loop_pers_untruthy env none (by rfl) details
      constructor
      · rintro ⟨c, hc⟩
        exact absurd hc (hun.2.2 d.itemId c)
      · rintro ⟨_, hsome⟩
        cases hsome
    | some u =>
      have hu := lookup_email_nonzero email u h
      have htr := loop_pers_truthy env u hu details
      constructor
      · rintro ⟨v, hv⟩
        obtain ⟨_, hok, _⟩ := (htr.2.2 d.itemId v).mp hv
        exact ⟨hok, rfl⟩
      · rintro ⟨hok, _⟩
        exact ⟨u, (htr.2.2 d.itemId u).mpr ⟨rfl, hok, d, hd, rfl⟩⟩
  · intro h
    rw [h]
    refine ⟨(loop_pers_untruthy env none (by rfl) details).2.2, ?_⟩
    intro hne
    simp [mondayOwnerWarning, truthyId, hne]
  · intro u h
    have hu := lookup_email_nonzero email u h
    have htr := loop_pers_truthy env u hu details
    exact ⟨htr.1, htr.2.1⟩

/-- Closed instance of C9 at a concrete run. -/
theorem claim9_witness :
    (∃ u, MutCall.personCall "it1" u
        ∈ (mondayUpdateLoop envBase
            (ZENDESK_OWNER_EMAIL_TO_MONDAY_ID.lookup "asoni@dxo.com")
            [⟨"it1", "CODE-1", "PhotoLab 8", "N/A", "N/A"⟩]).calls)
      ↔ (statusOkB envBase "it1" = true
          ∧ (ZENDESK_OWNER_EMAIL_TO_MONDAY_ID.lookup "asoni@dxo.com").isSome
              = true) :=
  (claim9_assignment_policy envBase
    [⟨"it1", "CODE-1", "PhotoLab 8", "N/A", "N/A"⟩] "asoni@dxo.com").1
    ⟨"it1", "CODE-1", "PhotoLab 8", "N/A", "N/A"⟩ (by simp)

end CRMApp
